import Mathlib

/-!
Verification of the staleness-reconciliation core of
`third_party/typescript/ts_library.py`.

The script bridges Ninja's timestamp-based staleness model and tsc's
content-based one.  We give a shallow embedding of the pure logic:

* a filesystem model (`FileSystem`): each path maps to an optional file
  carrying a modification time, text contents, and a readability flag
  (an unreadable file makes Python's `open` raise); writes can fail at
  designated paths (modelling `open(..., 'w')` raising `IOError`);
* `maybe_update_tsconfig_file` (ts_library.py lines 119-137);
* `compute_previous_generated_file_metadata` (lines 143-156);
* `maybe_reset_timestamps_on_generated_files` (lines 168-178);
* `mainBody`, the part of `main` from line 240 to line 277, i.e. after the
  tsconfig document has been constructed.  The construction of the document
  (lines 202-238) is pure data preparation and is abstracted as a document
  `tsconfig : α` together with its serialization `dumps : α → String`
  (modelling `json.dumps`, which is a pure function of the document); the
  compiler boundary (`runTsc` / `runTscRemote`) is an oracle
  `FileSystem → Int × String × FileSystem` returning the process return
  code, the combined stdout+stderr text, and the filesystem it produced.

Python exceptions that the script does not catch are modelled with
`Except String`: an `Except.error` outcome is an uncaught exception, which
aborts the whole run with a traceback (not with the script's own `return 1`).
-/

/-- One on-disk file as the script can observe it: its modification time
(`os.stat(...).st_mtime`), its text content (files are read and written with
`encoding="utf8"`), and whether opening it for reading succeeds. -/
structure PyFile where
  mtime : Nat
  contents : String
  readable : Bool
deriving DecidableEq, Repr

/-- The filesystem: a map from path to optional file, a predicate giving the
paths at which opening for write raises, and a clock supplying the
modification time that a successful write stamps on the file. -/
structure FileSystem where
  files : String → Option PyFile
  writeFails : String → Bool
  now : Nat

/-- Python `os.path.exists`. -/
def FileSystem.exists' (fs : FileSystem) (p : String) : Bool :=
  (fs.files p).isSome

/-- Python `os.utime(p, (t, t))`: rewrite the stored modification time of the
file at `p`, touching nothing else.  (The script only calls it on paths it
just checked with `os.path.exists`.) -/
def FileSystem.utime (fs : FileSystem) (p : String) (t : Nat) : FileSystem :=
  { fs with
    files := fun q =>
      if q = p then (fs.files q).map (fun f => { f with mtime := t })
      else fs.files q }

/-- The effect of a successful `open(p, 'w'); write(c)`: create or truncate
the file at `p` with contents `c`, stamping the current clock as its
modification time.  A created file is readable; an overwritten file keeps
its readability. -/
def FileSystem.setFile (fs : FileSystem) (p : String) (c : String) : FileSystem :=
  { fs with
    files := fun q =>
      if q = p then
        some { mtime := fs.now
               contents := c
               readable := match fs.files p with
                           | some f => f.readable
                           | none => true }
      else fs.files q
    now := fs.now + 1 }

/-- Python `open(p, 'w'); write(c)`, which raises at paths where writing
fails. -/
def FileSystem.write (fs : FileSystem) (p : String) (c : String) :
    Except String FileSystem :=
  if fs.writeFails p then .error ("IOError on write: " ++ p)
  else .ok (fs.setFile p c)

/-- Python `src.replace('.ts', ext)` on the character list of `src`: replace
every non-overlapping occurrence of the three characters `.ts`, scanning left
to right, by `rep`.  The script only ever calls `str.replace` with the
literal pattern `'.ts'`, so the pattern is fixed here. -/
def replaceTs (rep : List Char) : List Char → List Char
  | [] => []
  | [c1] => [c1]
  | [c1, c2] => [c1, c2]
  | c1 :: c2 :: c3 :: rest =>
    if c1 = '.' ∧ c2 = 't' ∧ c3 = 's' then rep ++ replaceTs rep rest
    else c1 :: replaceTs rep (c2 :: c3 :: rest)

/-- Python `src.count('.ts')`: the number of non-overlapping occurrences of
`.ts`, counted by the same left-to-right scan `str.replace` uses. -/
def countTs : List Char → Nat
  | [] => 0
  | [_] => 0
  | [_, _] => 0
  | c1 :: c2 :: c3 :: rest =>
    if c1 = '.' ∧ c2 = 't' ∧ c3 = 's' then 1 + countTs rest
    else countTs (c2 :: c3 :: rest)

/-- The part of a character list after its last `/`. -/
def basenameChars (l : List Char) : List Char :=
  (l.reverse.takeWhile (fun c => c != '/')).reverse

/-- Python (posix) `os.path.basename`: everything after the last `/`. -/
def ospath_basename (s : String) : String :=
  ⟨basenameChars s.data⟩

/-- Python `s.startswith(pre)`. -/
def strStartsWith (s pre : String) : Bool :=
  pre.data.isPrefixOf s.data

/-- Python `s.endswith(suf)`. -/
def strEndsWith (s suf : String) : Bool :=
  suf.data.isSuffixOf s.data

/-- Python (posix) `os.path.join(a, b)` for a single extra component: `b` if
it is absolute, otherwise `a` and `b` glued with exactly one `/`. -/
def ospath_join (a b : String) : String :=
  if strStartsWith b "/" then b
  else if a = "" then b
  else if strEndsWith a "/" then a ++ b
  else a ++ "/" ++ b

/-- Line 148 of the source: the generated file name expected for source file
`src` and extension `ext`, namely
`os.path.basename(src.replace('.ts', ext))`. -/
def gen_fname_for (src ext : String) : String :=
  ospath_basename ⟨replaceTs ext.data src.data⟩

/-- The three generated-file extensions of line 147. -/
def genExts : List String :=
  [".d.ts", ".js", ".map"]

/-- The `gen_files` dict: keyed by generated file name, holding the
pre-invocation `(st_mtime, contents)` pair.  Kept as a list in insertion
order, mirroring Python dict iteration order. -/
abbrev Snapshot : Type :=
  List (String × (Nat × String))

/-- The keys of a snapshot, in insertion order. -/
def snapKeys (snap : Snapshot) : List String :=
  snap.map (fun kv => kv.1)

/-- Python dict assignment `d[k] = v`: overwrite in place if the key is
present, otherwise append. -/
def dictInsert (d : Snapshot) (k : String) (v : Nat × String) : Snapshot :=
  if d.any (fun kv => kv.1 == k) then
    d.map (fun kv => if kv.1 = k then (k, v) else kv)
  else d ++ [(k, v)]

/-- The inner loop of `compute_previous_generated_file_metadata`
(lines 147-154): for each extension, if the expected generated file exists,
stat and read it (an unreadable file raises) and record it in the dict. -/
def snapshot_exts (fs : FileSystem) (dir src : String) :
    List String → Snapshot → Except String Snapshot
  | [], acc => .ok acc
  | ext :: rest, acc =>
    let gf := gen_fname_for src ext
    let gen_path := ospath_join dir gf
    match fs.files gen_path with
    | none => snapshot_exts fs dir src rest acc
    | some f =>
      if f.readable then
        snapshot_exts fs dir src rest (dictInsert acc gf (f.mtime, f.contents))
      else .error ("IOError on read: " ++ gen_path)

/-- The outer loop of `compute_previous_generated_file_metadata` over the
source files (line 146). -/
def cpgfm_sources (fs : FileSystem) (dir : String) :
    List String → Snapshot → Except String Snapshot
  | [], acc => .ok acc
  | src :: rest, acc =>
    match snapshot_exts fs dir src genExts acc with
    | .error e => .error e
    | .ok acc2 => cpgfm_sources fs dir rest acc2

/-- `compute_previous_generated_file_metadata` (lines 143-156): capture the
`(st_mtime, contents)` of every expected generated file that exists. -/
def compute_previous_generated_file_metadata (fs : FileSystem)
    (sources : List String) (dir : String) : Except String Snapshot :=
  cpgfm_sources fs dir sources []

/-- `maybe_reset_timestamps_on_generated_files` (lines 168-178): for every
name in the snapshot, if the file still exists, re-read it (raising if it is
unreadable) and, when the new contents equal the snapshotted contents, reset
its modification time to the snapshotted one. -/
def maybe_reset_timestamps_on_generated_files :
    Snapshot → String → FileSystem → Except String FileSystem
  | [], _, fs => .ok fs
  | (gf, (old_mtime, old_contents)) :: rest, dir, fs =>
    let gen_path := ospath_join dir gf
    match fs.files gen_path with
    | none => maybe_reset_timestamps_on_generated_files rest dir fs
    | some f =>
      if f.readable then
        if f.contents = old_contents then
          maybe_reset_timestamps_on_generated_files rest dir
            (fs.utime gen_path old_mtime)
        else
          maybe_reset_timestamps_on_generated_files rest dir fs
      else .error ("IOError on read: " ++ gen_path)

/-- The observable outcome of `maybe_update_tsconfig_file`: the filesystem
afterwards, the function's return code (0 or 1), the number of filesystem
writes performed, and the error text printed by the `except` branch, if
any. -/
structure MUTResult where
  fs : FileSystem
  returnCode : Nat
  writes : Nat
  printedError : Option String

/-- `maybe_update_tsconfig_file` (lines 119-137): read the existing file at
`loc` if present (an unreadable file raises, uncaught); serialize the
document; if there was no old content or it differs, write, catching a write
failure (printing it and returning 1).  Otherwise it does not write and
returns 0. -/
def maybe_update_tsconfig_file {α : Type} (dumps : α → String)
    (fs : FileSystem) (loc : String) (tsconfig : α) :
    Except String MUTResult :=
  match fs.files loc with
  | some f =>
    if f.readable then
      if dumps tsconfig ≠ f.contents then
        match fs.write loc (dumps tsconfig) with
        | .error e => .ok ⟨fs, 1, 0, some e⟩
        | .ok fs2 => .ok ⟨fs2, 0, 1, none⟩
      else .ok ⟨fs, 0, 0, none⟩
    else .error ("IOError on read: " ++ loc)
  | none =>
    match fs.write loc (dumps tsconfig) with
    | .error e => .ok ⟨fs, 1, 0, some e⟩
    | .ok fs2 => .ok ⟨fs2, 0, 1, none⟩

/-- Total number of writes performed by two successive calls of
`maybe_update_tsconfig_file` with the same document. -/
def twoCallWrites {α : Type} (dumps : α → String) (fs : FileSystem)
    (loc : String) (tsconfig : α) : Except String Nat :=
  match maybe_update_tsconfig_file dumps fs loc tsconfig with
  | .error e => .error e
  | .ok r1 =>
    match maybe_update_tsconfig_file dumps r1.fs loc tsconfig with
    | .error e => .error e
    | .ok r2 => .ok (r1.writes + r2.writes)

/-- The command-line options of `main` that steer the control flow modelled
here (lines 183-199).  The remaining options only influence the contents of
the tsconfig document, which `mainBody` receives already built. -/
structure Opts where
  sources : Option (List String)
  deps : Option (List String)
  verify_lib_check : Bool
  use_rbe : Bool

/-- Line 216: `sources = opts.sources or []`. -/
def sources_of (opts : Opts) : List String :=
  opts.sources.getD []

/-- Lines 252-253:
`use_remote_execution = opts.use_rbe and (opts.deps is None or len(opts.deps) == 0)`. -/
def use_remote_execution (opts : Opts) : Bool :=
  opts.use_rbe && (opts.deps.isNone || (opts.deps.getD []).isEmpty)

/-- The observable outcome of one run of `main` from line 240 on: the process
exit code, how many times the compiler boundary was invoked, whether the
artifact snapshot was taken, how many writes persisting the tsconfig

performed, the error text printed on a tsconfig write failure, the failure
report printed on a compiler failure (the tsconfig path used, and the
diagnostics text), whether the remote path was used, and the final
filesystem. -/
structure RunResult where
  exitCode : Nat
  compilerInvocations : Nat
  snapshotTaken : Bool
  configWrites : Nat
  printedConfigWriteError : Option String
  printedCompileFailure : Option (String × String)
  usedRemote : Bool
  fs : FileSystem

/-- Lines 240-277 of `main`: persist the tsconfig (aborting with exit code 1
if that failed); short-circuit with success when there are no sources and
library verification was not requested; snapshot the previously generated
files; invoke the compiler boundary (remote or local); reconcile the
timestamps; report failure (exit 1, printing the diagnostics and the
tsconfig path) exactly when the compiler returned a non-zero code. -/
def mainBody {α : Type} (dumps : α → String)
    (compileLocal compileRemote : FileSystem → Int × String × FileSystem)
    (fs0 : FileSystem) (tsconfig_output_location tsconfig_output_directory : String)
    (tsconfig : α) (opts : Opts) : Except String RunResult :=
  match maybe_update_tsconfig_file dumps fs0 tsconfig_output_location tsconfig with
  | .error e => .error e
  | .ok r =>
    if r.returnCode = 1 then
      .ok ⟨1, 0, false, r.writes, r.printedError, none, false, r.fs⟩
    else
      if (sources_of opts).length = 0 ∧ opts.verify_lib_check = false then
        .ok ⟨0, 0, false, r.writes, r.printedError, none, false, r.fs⟩
      else
        match compute_previous_generated_file_metadata r.fs (sources_of opts)
            tsconfig_output_directory with
        | .error e => .error e
        | .ok snap =>
          let rem := use_remote_execution opts
          let out := if rem then compileRemote r.fs else compileLocal r.fs
          match maybe_reset_timestamps_on_generated_files snap
              tsconfig_output_directory out.2.2 with
          | .error e => .error e
          | .ok fs3 =>
            if out.1 ≠ 0 then
              .ok ⟨1, 1, true, r.writes, none,
                   some (tsconfig_output_location, out.2.1), rem, fs3⟩
            else
              .ok ⟨0, 1, true, r.writes, none, none, rem, fs3⟩

example : gen_fname_for "a.ts" ".d.ts" = "a.d.ts" := rfl

example : gen_fname_for "front_end/common/a.ts" ".js" = "a.js" := rfl

example : gen_fname_for "a.ts.ts" ".d.ts" = "a.d.ts.d.ts" := rfl

example : ospath_join "out" "a.js" = "out/a.js" := rfl

example : ospath_join "" "a.js" = "a.js" := rfl

example : ospath_join "out/" "a.js" = "out/a.js" := rfl

example : ospath_join "out" "/abs/a.js" = "/abs/a.js" := rfl

/-! ### Helper lemmas about the filesystem model -/

theorem string_append_cancel_left {a b c : String} (h : a ++ b = a ++ c) : b = c := by
  have hd := congrArg String.data h
  simp only [String.data_append] at hd
  exact String.ext (List.append_cancel_left hd)

theorem ospath_join_inj {dir k1 k2 : String}
    (h1 : strStartsWith k1 "/" = false) (h2 : strStartsWith k2 "/" = false)
    (h : ospath_join dir k1 = ospath_join dir k2) : k1 = k2 := by
  unfold ospath_join at h
  rw [h1, h2] at h
  simp only [Bool.false_eq_true, if_false] at h
  split_ifs at h
  · exact h
  · exact string_append_cancel_left h
  · exact string_append_cancel_left h

@[simp] theorem snapKeys_nil : snapKeys [] = [] := rfl

@[simp] theorem snapKeys_cons (kv : String × Nat × String) (rest : Snapshot) :
    snapKeys (kv :: rest) = kv.1 :: snapKeys rest := rfl

theorem utime_files_self (fs : FileSystem) (p : String) (t : Nat) :
    (fs.utime p t).files p = (fs.files p).map (fun f => { f with mtime := t }) := by
  simp [FileSystem.utime]

theorem utime_files_ne (fs : FileSystem) (p q : String) (t : Nat) (h : q ≠ p) :
    (fs.utime p t).files q = fs.files q := by
  simp [FileSystem.utime, h]

theorem utime_preserves_contents (fs : FileSystem) (q : String) (t : Nat) (p : String) :
    ((fs.utime q t).files p).map PyFile.contents = (fs.files p).map PyFile.contents := by
  by_cases h : p = q
  · subst h
    rw [utime_files_self]
    cases fs.files p <;> simp
  · rw [utime_files_ne fs q p t h]

theorem utime_preserves_readable (fs : FileSystem) (q : String) (t : Nat) (p : String) :
    ((fs.utime q t).files p).map PyFile.readable = (fs.files p).map PyFile.readable := by
  by_cases h : p = q
  · subst h
    rw [utime_files_self]
    cases fs.files p <;> simp
  · rw [utime_files_ne fs q p t h]

theorem utime_preserves_isSome (fs : FileSystem) (q : String) (t : Nat) (p : String) :
    ((fs.utime q t).files p).isSome = (fs.files p).isSome := by
  by_cases h : p = q
  · subst h
    rw [utime_files_self]
    cases fs.files p <;> simp
  · rw [utime_files_ne fs q p t h]

theorem utime_writeFails (fs : FileSystem) (q : String) (t : Nat) :
    (fs.utime q t).writeFails = fs.writeFails := rfl

theorem utime_now (fs : FileSystem) (q : String) (t : Nat) :
    (fs.utime q t).now = fs.now := rfl

/-! ### Behaviour of the Reconciler -/

theorem reconcile_frame (snap : Snapshot) (dir : String) (fs fs' : FileSystem)
    (hok : maybe_reset_timestamps_on_generated_files snap dir fs = .ok fs')
    (p : String) (hp : ∀ k ∈ snapKeys snap, ospath_join dir k ≠ p) :
    fs'.files p = fs.files p := by
  induction snap generalizing fs with
  | nil =>
    simp only [maybe_reset_timestamps_on_generated_files, Except.ok.injEq] at hok
    rw [hok]
  | cons kv rest ih =>
    obtain ⟨gf, t, c⟩ := kv
    have htail : ∀ k ∈ snapKeys rest, ospath_join dir k ≠ p := by
      intro k hk
      exact hp k (by simp [hk])
    simp only [maybe_reset_timestamps_on_generated_files] at hok
    split at hok
    · exact ih fs hok htail
    · split at hok
      · split at hok
        · rw [ih _ hok htail]
          exact utime_files_ne fs _ p _ (Ne.symm (hp gf (by simp)))
        · exact ih fs hok htail
      · exact absurd hok (by simp)

theorem reconcile_preserves (snap : Snapshot) (dir : String) (fs fs' : FileSystem)
    (hok : maybe_reset_timestamps_on_generated_files snap dir fs = .ok fs') :
    (∀ p, (fs'.files p).map PyFile.contents = (fs.files p).map PyFile.contents) ∧
    (∀ p, (fs'.files p).map PyFile.readable = (fs.files p).map PyFile.readable) ∧
    (∀ p, (fs'.files p).isSome = (fs.files p).isSome) ∧
    fs'.writeFails = fs.writeFails ∧ fs'.now = fs.now := by
  induction snap generalizing fs with
  | nil =>
    simp only [maybe_reset_timestamps_on_generated_files, Except.ok.injEq] at hok
    rw [hok]
    exact ⟨fun _ => rfl, fun _ => rfl, fun _ => rfl, rfl, rfl⟩
  | cons kv rest ih =>
    obtain ⟨gf, t, c⟩ := kv
    simp only [maybe_reset_timestamps_on_generated_files] at hok
    split at hok
    · exact ih fs hok
    · split at hok
      · split at hok
        · obtain ⟨h1, h2, h3, h4, h5⟩ := ih _ hok
          refine ⟨?_, ?_, ?_, ?_, ?_⟩
          · intro p
            rw [h1 p, utime_preserves_contents]
          · intro p
            rw [h2 p, utime_preserves_readable]
          · intro p
            rw [h3 p, utime_preserves_isSome]
          · rw [h4, utime_writeFails]
          · rw [h5, utime_now]
        · exact ih fs hok
      · exact absurd hok (by simp)

/-- C1: for every artifact recorded in the snapshot that still exists after
the compiler invocation, if its newly read content is byte-identical to the
snapshotted content, then after `maybe_reset_timestamps_on_generated_files`
its modification time equals the snapshotted pre-invocation modification
time, regardless of what timestamp the compiler wrote.  The snapshot is
keyed by distinct generated-file base names (no leading `/`), as
`compute_previous_generated_file_metadata` produces them. -/
theorem reconcile_restores_mtime_when_content_identical
    (snap : Snapshot) (dir : String) (fs fs' : FileSystem)
    (k : String) (t : Nat) (c : String) (f : PyFile)
    (hnd : (snapKeys snap).Nodup)
    (hns : ∀ k2 ∈ snapKeys snap, strStartsWith k2 "/" = false)
    (hmem : (k, (t, c)) ∈ snap)
    (hf : fs.files (ospath_join dir k) = some f)
    (hc : f.contents = c)
    (hok : maybe_reset_timestamps_on_generated_files snap dir fs = .ok fs') :
    fs'.files (ospath_join dir k) = some { f with mtime := t } := by
  induction snap generalizing fs with
  | nil => exact absurd hmem (List.not_mem_nil _)
  | cons kv rest ih =>
    obtain ⟨gf, t0, c0⟩ := kv
    have hndr : (snapKeys rest).Nodup := (List.nodup_cons.mp hnd).2
    have hgfr : gf ∉ snapKeys rest := (List.nodup_cons.mp hnd).1
    have hnsr : ∀ k2 ∈ snapKeys rest, strStartsWith k2 "/" = false := by
      intro k2 hk2
      exact hns k2 (List.mem_cons_of_mem _ hk2)
    have hgfs : strStartsWith gf "/" = false := hns gf (List.mem_cons_self _ _)
    simp only [maybe_reset_timestamps_on_generated_files] at hok
    split at hok
    · rename_i hnone
      rcases List.mem_cons.mp hmem with heq | hmem2
      · injection heq with hk htc
        subst hk
        rw [hf] at hnone
        exact absurd hnone (by simp)
      · exact ih fs hndr hnsr hmem2 hf hok
    · rename_i f0 hsome
      split at hok
      · rename_i hread0
        split at hok
        · rename_i heqc
          rcases List.mem_cons.mp hmem with heq | hmem2
          · injection heq with hk htc
            injection htc with ht hcc
            subst hk
            subst ht
            subst hcc
            have hf0 : f0 = f := by
              rw [hf] at hsome
              exact (Option.some.inj hsome).symm
            have hks : strStartsWith k "/" = false := hns k (List.mem_cons_self _ _)
            have hfr : fs'.files (ospath_join dir k) =
                (fs.utime (ospath_join dir k) t).files (ospath_join dir k) := by
              apply reconcile_frame rest dir _ fs' hok
              intro k2 hk2 hje
              have hkk : k2 = k := ospath_join_inj (hnsr k2 hk2) hks hje
              subst hkk
              exact hgfr hk2
            rw [hfr, utime_files_self, hf]
            simp [hf0]
          · have hkr : k ∈ snapKeys rest :=
              List.mem_map_of_mem (fun kv => kv.1) hmem2
            have hkne : k ≠ gf := fun he => hgfr (he ▸ hkr)
            have hks : strStartsWith k "/" = false := hnsr k hkr
            have hjne : ospath_join dir k ≠ ospath_join dir gf := fun hje =>
              hkne (ospath_join_inj hks hgfs hje)
            have hf2 : (fs.utime (ospath_join dir gf) t0).files (ospath_join dir k) = some f := by
              rw [utime_files_ne fs _ _ t0 hjne]
              exact hf
            exact ih _ hndr hnsr hmem2 hf2 hok
        · rename_i hneqc
          rcases List.mem_cons.mp hmem with heq | hmem2
          · injection heq with hk htc
            injection htc with ht hcc
            subst hk
            subst hcc
            rw [hf] at hsome
            have hf0 : f0 = f := (Option.some.inj hsome).symm
            exact absurd (hf0 ▸ hc) hneqc
          · exact ih fs hndr hnsr hmem2 hf hok
      · exact absurd hok (by simp)

/-- C2: for every artifact recorded in the snapshot, if after the compiler
invocation its content differs from the snapshotted content, or the file no
longer exists, `maybe_reset_timestamps_on_generated_files` leaves the file
untouched: no timestamp restoration is performed and its post-compiler state
(including any fresh write timestamp) is preserved. -/
theorem reconcile_leaves_changed_or_missing_untouched
    (snap : Snapshot) (dir : String) (fs fs' : FileSystem)
    (k : String) (t : Nat) (c : String)
    (hnd : (snapKeys snap).Nodup)
    (hns : ∀ k2 ∈ snapKeys snap, strStartsWith k2 "/" = false)
    (hmem : (k, (t, c)) ∈ snap)
    (hch : fs.files (ospath_join dir k) = none ∨
      ∃ f, fs.files (ospath_join dir k) = some f ∧ f.readable = true ∧ f.contents ≠ c)
    (hok : maybe_reset_timestamps_on_generated_files snap dir fs = .ok fs') :
    fs'.files (ospath_join dir k) = fs.files (ospath_join dir k) := by
  induction snap generalizing fs with
  | nil => exact absurd hmem (List.not_mem_nil _)
  | cons kv rest ih =>
    obtain ⟨gf, t0, c0⟩ := kv
    have hndr : (snapKeys rest).Nodup := (List.nodup_cons.mp hnd).2
    have hgfr : gf ∉ snapKeys rest := (List.nodup_cons.mp hnd).1
    have hnsr : ∀ k2 ∈ snapKeys rest, strStartsWith k2 "/" = false := by
      intro k2 hk2
      exact hns k2 (List.mem_cons_of_mem _ hk2)
    have hgfs : strStartsWith gf "/" = false := hns gf (List.mem_cons_self _ _)
    simp only [maybe_reset_timestamps_on_generated_files] at hok
    split at hok
    · rename_i hnone
      rcases List.mem_cons.mp hmem with heq | hmem2
      · injection heq with hk htc
        subst hk
        have hks : strStartsWith k "/" = false := hns k (List.mem_cons_self _ _)
        have hfr : fs'.files (ospath_join dir k) = fs.files (ospath_join dir k) := by
          apply reconcile_frame rest dir _ fs' hok
          intro k2 hk2 hje
          have hkk : k2 = k := ospath_join_inj (hnsr k2 hk2) hks hje
          subst hkk
          exact hgfr hk2
        exact hfr
      · exact ih fs hndr hnsr hmem2 hch hok
    · rename_i f0 hsome
      split at hok
      · rename_i hread0
        split at hok
        · rename_i heqc
          rcases List.mem_cons.mp hmem with heq | hmem2
          · injection heq with hk htc
            injection htc with ht hcc
            subst hk
            subst hcc
            rcases hch with hn | ⟨f, hfs, hfr, hfc⟩
            · rw [hn] at hsome
              exact absurd hsome (by simp)
            · rw [hfs] at hsome
              have hf0 : f0 = f := (Option.some.inj hsome).symm
              exact absurd (hf0 ▸ heqc) hfc
          · have hkr : k ∈ snapKeys rest :=
              List.mem_map_of_mem (fun kv => kv.1) hmem2
            have hkne : k ≠ gf := fun he => hgfr (he ▸ hkr)
            have hks : strStartsWith k "/" = false := hnsr k hkr
            have hjne : ospath_join dir k ≠ ospath_join dir gf := fun hje =>
              hkne (ospath_join_inj hks hgfs hje)
            have hch2 : (fs.utime (ospath_join dir gf) t0).files (ospath_join dir k) = none ∨
                ∃ f, (fs.utime (ospath_join dir gf) t0).files (ospath_join dir k) = some f ∧
                  f.readable = true ∧ f.contents ≠ c := by
              rw [utime_files_ne fs _ _ t0 hjne]
              exact hch
            have := ih _ hndr hnsr hmem2 hch2 hok
            rw [utime_files_ne fs _ _ t0 hjne] at this
            exact this
        · rename_i hneqc
          rcases List.mem_cons.mp hmem with heq | hmem2
          · injection heq with hk htc
            injection htc with ht hcc
            subst hk
            subst hcc
            have hks : strStartsWith k "/" = false := hns k (List.mem_cons_self _ _)
            apply reconcile_frame rest dir _ fs' hok
            intro k2 hk2 hje
            have hkk : k2 = k := ospath_join_inj (hnsr k2 hk2) hks hje
            subst hkk
            exact hgfr hk2
          · exact ih fs hndr hnsr hmem2 hch hok
      · exact absurd hok (by simp)

/-- C9: `maybe_reset_timestamps_on_generated_files` mutates at most the
timestamps of files whose names are keys of the snapshot; any file whose path
is not the output-directory join of a snapshot key is left exactly as it was,
and for every file (touched or not) the contents, the readability, and the
existence are preserved — only modification times can change.  The write
failure set and the clock are untouched as well. -/
theorem reconcile_frame_only_snapshot_timestamps
    (snap : Snapshot) (dir : String) (fs fs' : FileSystem)
    (hok : maybe_reset_timestamps_on_generated_files snap dir fs = .ok fs') :
    (∀ p, (∀ k ∈ snapKeys snap, ospath_join dir k ≠ p) → fs'.files p = fs.files p) ∧
    (∀ p, (fs'.files p).map PyFile.contents = (fs.files p).map PyFile.contents) ∧
    (∀ p, (fs'.files p).map PyFile.readable = (fs.files p).map PyFile.readable) ∧
    (∀ p, (fs'.files p).isSome = (fs.files p).isSome) ∧
    fs'.writeFails = fs.writeFails ∧ fs'.now = fs.now :=
  ⟨fun p hp => reconcile_frame snap dir fs fs' hok p hp,
   (reconcile_preserves snap dir fs fs' hok).1,
   (reconcile_preserves snap dir fs fs' hok).2.1,
   (reconcile_preserves snap dir fs fs' hok).2.2.1,
   (reconcile_preserves snap dir fs fs' hok).2.2.2.1,
   (reconcile_preserves snap dir fs fs' hok).2.2.2.2⟩

/-- A concrete post-compiler filesystem: `out/a.js` was rewritten with
identical content `body` but a fresh timestamp 9. -/
def fsA : FileSystem :=
  ⟨fun p => if p = "out/a.js" then some ⟨9, "body", true⟩ else none,
   fun _ => false, 100⟩

theorem reconcile_restores_mtime_when_content_identical_witness :
    maybe_reset_timestamps_on_generated_files [("a.js", (5, "body"))] "out" fsA =
      .ok (fsA.utime "out/a.js" 5) ∧
    (fsA.utime "out/a.js" 5).files "out/a.js" = some ⟨5, "body", true⟩ :=
  ⟨rfl,
   reconcile_restores_mtime_when_content_identical [("a.js", (5, "body"))] "out"
     fsA (fsA.utime "out/a.js" 5) "a.js" 5 "body" ⟨9, "body", true⟩
     (by decide) (by decide) (by decide) rfl rfl rfl⟩

/-- A concrete post-compiler filesystem: `out/a.js` has unchanged content,
`out/b.js` was rewritten with different content and a fresh timestamp 9. -/
def fsB : FileSystem :=
  ⟨fun p =>
    if p = "out/a.js" then some ⟨9, "body", true⟩
    else if p = "out/b.js" then some ⟨9, "new", true⟩
    else none,
   fun _ => false, 100⟩

theorem reconcile_leaves_changed_or_missing_untouched_witness :
    maybe_reset_timestamps_on_generated_files
      [("a.js", (5, "body")), ("b.js", (5, "old"))] "out" fsB =
      .ok (fsB.utime "out/a.js" 5) ∧
    (fsB.utime "out/a.js" 5).files "out/b.js" = fsB.files "out/b.js" :=
  ⟨rfl,
   reconcile_leaves_changed_or_missing_untouched
     [("a.js", (5, "body")), ("b.js", (5, "old"))] "out"
     fsB (fsB.utime "out/a.js" 5) "b.js" 5 "old"
     (by decide) (by decide) (by decide)
     (Or.inr ⟨⟨9, "new", true⟩, rfl, rfl, by decide⟩) rfl⟩

theorem reconcile_frame_only_snapshot_timestamps_witness :
    maybe_reset_timestamps_on_generated_files [("a.js", (5, "body"))] "out" fsB =
      .ok (fsB.utime "out/a.js" 5) ∧
    (fsB.utime "out/a.js" 5).files "out/b.js" = fsB.files "out/b.js" ∧
    ((fsB.utime "out/a.js" 5).files "out/a.js").map PyFile.contents =
      (fsB.files "out/a.js").map PyFile.contents :=
  ⟨rfl,
   (reconcile_frame_only_snapshot_timestamps [("a.js", (5, "body"))] "out"
     fsB (fsB.utime "out/a.js" 5) rfl).1 "out/b.js" (by decide),
   (reconcile_frame_only_snapshot_timestamps [("a.js", (5, "body"))] "out"
     fsB (fsB.utime "out/a.js" 5) rfl).2.1 "out/a.js"⟩

/-! ### Behaviour of maybe_update_tsconfig_file -/

theorem write_ok_files {fs fs2 : FileSystem} {p c : String}
    (h : fs.write p c = .ok fs2) :
    fs2.files p = some ⟨fs.now, c,
      match fs.files p with | some f => f.readable | none => true⟩ ∧
    fs2.now = fs.now + 1 ∧ fs2.writeFails = fs.writeFails ∧
    ∀ q, q ≠ p → fs2.files q = fs.files q := by
  unfold FileSystem.write at h
  split at h
  · exact absurd h (by simp)
  · have h2 : fs2 = fs.setFile p c := (Except.ok.inj h).symm
    subst h2
    refine ⟨?_, rfl, rfl, ?_⟩
    · simp [FileSystem.setFile]
    · intro q hq
      simp [FileSystem.setFile, hq]

theorem mut_no_write_when_identical {α : Type} (dumps : α → String)
    (fs : FileSystem) (loc : String) (doc : α) (f : PyFile)
    (hf : fs.files loc = some f) (hr : f.readable = true)
    (hc : f.contents = dumps doc) :
    maybe_update_tsconfig_file dumps fs loc doc = .ok ⟨fs, 0, 0, none⟩ := by
  unfold maybe_update_tsconfig_file
  rw [hf]
  simp [hr, hc]

theorem mut_shape {α : Type} (dumps : α → String) (fs : FileSystem)
    (loc : String) (doc : α) (r : MUTResult)
    (h : maybe_update_tsconfig_file dumps fs loc doc = .ok r) :
    (r.returnCode = 0 ∨ r.returnCode = 1) ∧ r.writes ≤ 1 ∧
    (r.returnCode = 0 →
      ∃ f, r.fs.files loc = some f ∧ f.readable = true ∧ f.contents = dumps doc) ∧
    (r.returnCode = 1 → r.fs = fs ∧ r.writes = 0) := by
  unfold maybe_update_tsconfig_file at h
  split at h
  · rename_i f hf
    split at h
    · rename_i hr
      split at h
      · rename_i hne
        split at h
        · rename_i e herr
          have hr2 : r = ⟨fs, 1, 0, some e⟩ := (Except.ok.inj h).symm
          subst hr2
          exact ⟨Or.inr rfl, by simp, by simp, fun _ => ⟨rfl, rfl⟩⟩
        · rename_i fs2 hw
          have hr2 : r = ⟨fs2, 0, 1, none⟩ := (Except.ok.inj h).symm
          subst hr2
          refine ⟨Or.inl rfl, by simp, fun _ => ?_, by simp⟩
          obtain ⟨hw1, _, _, _⟩ := write_ok_files hw
          rw [hf] at hw1
          exact ⟨⟨fs.now, dumps doc, f.readable⟩, hw1, hr, rfl⟩
      · rename_i heq
        have hr2 : r = ⟨fs, 0, 0, none⟩ := (Except.ok.inj h).symm
        subst hr2
        refine ⟨Or.inl rfl, by simp, fun _ => ?_, by simp⟩
        exact ⟨f, hf, hr, (by simpa using heq : dumps doc = f.contents).symm⟩
    · exact absurd h (by simp)
  · rename_i hf
    split at h
    · rename_i e herr
      have hr2 : r = ⟨fs, 1, 0, some e⟩ := (Except.ok.inj h).symm
      subst hr2
      exact ⟨Or.inr rfl, by simp, by simp, fun _ => ⟨rfl, rfl⟩⟩
    · rename_i fs2 hw
      have hr2 : r = ⟨fs2, 0, 1, none⟩ := (Except.ok.inj h).symm
      subst hr2
      refine ⟨Or.inl rfl, by simp, fun _ => ?_, by simp⟩
      obtain ⟨hw1, _, _, _⟩ := write_ok_files hw
      rw [hf] at hw1
      exact ⟨⟨fs.now, dumps doc, true⟩, hw1, rfl, rfl⟩

/-- A concrete document type for instantiating the abstract tsconfig
document: key-value pairs with a deterministic rendering standing in for
`json.dumps`. -/
def testDumps (d : List (String × String)) : String :=
  String.join (d.map (fun kv => kv.1 ++ "=" ++ kv.2 ++ ";"))

/-- A concrete document. -/
def docC : List (String × String) :=
  [("files", "a.ts")]

/-- A filesystem on which the tsconfig on disk already equals the serialized
document. -/
def fsC3 : FileSystem :=
  ⟨fun p => if p = "gen/tsconfig.json" then some ⟨3, "files=a.ts;", true⟩ else none,
   fun _ => false, 50⟩

/-- C3 counterexample: when the file on disk already holds the serialized
document, two successive calls of `maybe_update_tsconfig_file` with the same
document perform zero filesystem writes, not exactly one.  (The claim's
universally quantified consequence of exactly one write over the two calls
is therefore false.) -/
theorem persist_twice_not_exactly_one_write_counterexample :
    twoCallWrites testDumps fsC3 "gen/tsconfig.json" docC = .ok 0 ∧
    twoCallWrites testDumps fsC3 "gen/tsconfig.json" docC ≠ .ok 1 := by
  refine ⟨rfl, fun h => ?_⟩
  have h0 : (Except.ok 0 : Except String Nat) = .ok 1 :=
    (rfl : twoCallWrites testDumps fsC3 "gen/tsconfig.json" docC = .ok 0).symm.trans h
  exact absurd (Except.ok.inj h0) (by decide)

/-- C3 amended: `maybe_update_tsconfig_file` writes only if the serialized
form differs from the file at the target path or the file is absent; hence
calling it twice in a row with an identical document performs at most one
filesystem write in total, and the second call performs no write and leaves
the filesystem unchanged; the total is exactly one write when the file was
initially absent or its content differed from the serialized form (and the
write succeeds). -/
theorem persist_if_changed_at_most_one_write {α : Type} (dumps : α → String)
    (fs : FileSystem) (loc : String) (doc : α) :
    ((∃ f, fs.files loc = some f ∧ f.readable = true ∧ f.contents = dumps doc) →
      maybe_update_tsconfig_file dumps fs loc doc = .ok ⟨fs, 0, 0, none⟩) ∧
    (∀ r, maybe_update_tsconfig_file dumps fs loc doc = .ok r → r.returnCode = 0 →
      maybe_update_tsconfig_file dumps r.fs loc doc = .ok ⟨r.fs, 0, 0, none⟩) ∧
    (∀ n, twoCallWrites dumps fs loc doc = .ok n → n ≤ 1) ∧
    ((fs.files loc = none ∨
        ∃ f, fs.files loc = some f ∧ f.readable = true ∧
          f.contents ≠ dumps doc) →
      fs.writeFails loc = false →
      twoCallWrites dumps fs loc doc = .ok 1) := by
  refine ⟨?_, ?_, ?_, ?_⟩
  · rintro ⟨f, hf, hr, hc⟩
    exact mut_no_write_when_identical dumps fs loc doc f hf hr hc
  · intro r h hrc
    obtain ⟨_, _, hid, _⟩ := mut_shape dumps fs loc doc r h
    obtain ⟨f, hf, hr, hc⟩ := hid hrc
    exact mut_no_write_when_identical dumps r.fs loc doc f hf hr hc
  · intro n hn
    unfold twoCallWrites at hn
    split at hn
    · exact absurd hn (by simp)
    · rename_i r1 h1
      split at hn
      · exact absurd hn (by simp)
      · rename_i r2 h2
        have hnv : r1.writes + r2.writes = n := Except.ok.inj hn
        obtain ⟨hrc1, hw1, hid1, hfail1⟩ := mut_shape dumps fs loc doc r1 h1
        rcases hrc1 with h0 | hone
        · obtain ⟨f, hf, hr, hc⟩ := hid1 h0
          have hsec : maybe_update_tsconfig_file dumps r1.fs loc doc =
              .ok ⟨r1.fs, 0, 0, none⟩ :=
            mut_no_write_when_identical dumps r1.fs loc doc f hf hr hc
          have hr2 : r2 = ⟨r1.fs, 0, 0, none⟩ :=
            Except.ok.inj (h2.symm.trans hsec)
          subst hr2
          simp only [] at hnv
          omega
        · obtain ⟨hfs1, hw0⟩ := hfail1 hone
          obtain ⟨_, hw2, _, _⟩ := mut_shape dumps r1.fs loc doc r2 h2
          omega
  · intro hch hwf
    rcases hch with hnone | ⟨f, hf, hr, hc⟩
    · have h1 : maybe_update_tsconfig_file dumps fs loc doc =
          .ok ⟨fs.setFile loc (dumps doc), 0, 1, none⟩ := by
        unfold maybe_update_tsconfig_file FileSystem.write
        rw [hnone]
        simp [hwf]
      have hsf : (fs.setFile loc (dumps doc)).files loc =
          some ⟨fs.now, dumps doc, true⟩ := by
        simp [FileSystem.setFile, hnone]
      have h2 := mut_no_write_when_identical dumps (fs.setFile loc (dumps doc))
        loc doc ⟨fs.now, dumps doc, true⟩ hsf rfl rfl
      unfold twoCallWrites
      simp only [h1]
      simp only [h2]
    · have h1 : maybe_update_tsconfig_file dumps fs loc doc =
          .ok ⟨fs.setFile loc (dumps doc), 0, 1, none⟩ := by
        unfold maybe_update_tsconfig_file FileSystem.write
        rw [hf]
        simp [hr, hwf, Ne.symm hc]
      have hsf : (fs.setFile loc (dumps doc)).files loc =
          some ⟨fs.now, dumps doc, true⟩ := by
        simp [FileSystem.setFile, hf, hr]
      have h2 := mut_no_write_when_identical dumps (fs.setFile loc (dumps doc))
        loc doc ⟨fs.now, dumps doc, true⟩ hsf rfl rfl
      unfold twoCallWrites
      simp only [h1]
      simp only [h2]

/-- An initially empty filesystem on which writes succeed. -/
def fsE : FileSystem :=
  ⟨fun _ => none, fun _ => false, 7⟩

/-- A filesystem whose tsconfig on disk differs from the serialized
document. -/
def fsD3 : FileSystem :=
  ⟨fun p => if p = "gen/tsconfig.json" then some ⟨3, "files=old.ts;", true⟩
    else none,
   fun _ => false, 50⟩

theorem persist_if_changed_at_most_one_write_witness :
    twoCallWrites testDumps fsE "gen/tsconfig.json" docC = .ok 1 ∧
    twoCallWrites testDumps fsD3 "gen/tsconfig.json" docC = .ok 1 :=
  ⟨(persist_if_changed_at_most_one_write testDumps fsE "gen/tsconfig.json"
      docC).2.2.2 (Or.inl rfl) rfl,
   (persist_if_changed_at_most_one_write testDumps fsD3 "gen/tsconfig.json"
      docC).2.2.2
     (Or.inr ⟨⟨3, "files=old.ts;", true⟩, rfl, rfl, by decide⟩) rfl⟩

/-! ### Behaviour of mainBody -/

/-- C4: if the supplied source list is empty and `--verify-lib-check` is not
set, then — provided persisting the configuration succeeded — the run
performs no compiler invocation at all (the result does not depend on either
compile oracle and the invocation count is 0), takes no artifact snapshot,
and returns exit code 0, with the filesystem exactly as
`maybe_update_tsconfig_file` left it. -/
theorem zero_sources_short_circuit_success {α : Type} (dumps : α → String)
    (compileLocal compileRemote : FileSystem → Int × String × FileSystem)
    (fs0 : FileSystem) (loc dir : String) (tsconfig : α) (opts : Opts)
    (r : MUTResult)
    (hsrc : sources_of opts = [])
    (hv : opts.verify_lib_check = false)
    (hcfg : maybe_update_tsconfig_file dumps fs0 loc tsconfig = .ok r)
    (hrc : r.returnCode = 0) :
    mainBody dumps compileLocal compileRemote fs0 loc dir tsconfig opts =
      .ok ⟨0, 0, false, r.writes, r.printedError, none, false, r.fs⟩ := by
  have hne : r.returnCode ≠ 1 := by omega
  simp only [mainBody, hcfg]
  rw [if_neg hne, if_pos ⟨by rw [hsrc]; rfl, hv⟩]

/-- C6: if writing the configuration document fails with an I/O error (the
target path is in the write-failure set and the document needed writing
because the file was absent or its content differed), the run aborts with
exit code 1 before any compiler invocation and before any artifact snapshot
is taken; the underlying I/O error is reported via the config-write error
channel, which is distinct from the compile-failure report (left empty), and
the filesystem is unchanged. -/
theorem config_write_failure_aborts_before_compile {α : Type} (dumps : α → String)
    (compileLocal compileRemote : FileSystem → Int × String × FileSystem)
    (fs0 : FileSystem) (loc dir : String) (tsconfig : α) (opts : Opts)
    (hwf : fs0.writeFails loc = true)
    (hch : fs0.files loc = none ∨
      ∃ f, fs0.files loc = some f ∧ f.readable = true ∧
        f.contents ≠ dumps tsconfig) :
    mainBody dumps compileLocal compileRemote fs0 loc dir tsconfig opts =
      .ok ⟨1, 0, false, 0, some ("IOError on write: " ++ loc), none, false, fs0⟩ := by
  have hcfg : maybe_update_tsconfig_file dumps fs0 loc tsconfig =
      .ok ⟨fs0, 1, 0, some ("IOError on write: " ++ loc)⟩ := by
    unfold maybe_update_tsconfig_file FileSystem.write
    rcases hch with hn | ⟨f, hf, hr, hc⟩
    · rw [hn]
      simp [hwf]
    · rw [hf]
      simp [hr, hwf, Ne.symm hc]
  simp only [mainBody, hcfg]
  simp

/-- When the compiler invocation is reached (config persisted with return
code 0, no zero-source short circuit, snapshot taken), the run invokes the
selected oracle once, reconciles the timestamps on the filesystem the
compiler produced, and reports failure exactly when the compiler's return
code is non-zero. -/
theorem mainBody_reaches_compile {α : Type} (dumps : α → String)
    (compileLocal compileRemote : FileSystem → Int × String × FileSystem)
    (fs0 : FileSystem) (loc dir : String) (tsconfig : α) (opts : Opts)
    (r : MUTResult) (snap : Snapshot) (code : Int) (diag : String)
    (fs2 fs3 : FileSystem)
    (hcfg : maybe_update_tsconfig_file dumps fs0 loc tsconfig = .ok r)
    (hrc : r.returnCode ≠ 1)
    (hgo : ¬((sources_of opts).length = 0 ∧ opts.verify_lib_check = false))
    (hsnap : compute_previous_generated_file_metadata r.fs (sources_of opts) dir =
      .ok snap)
    (hcomp : (if use_remote_execution opts then compileRemote r.fs
      else compileLocal r.fs) = (code, diag, fs2))
    (hrec : maybe_reset_timestamps_on_generated_files snap dir fs2 = .ok fs3) :
    mainBody dumps compileLocal compileRemote fs0 loc dir tsconfig opts =
      .ok ⟨if code ≠ 0 then 1 else 0, 1, true, r.writes, none,
           if code ≠ 0 then some (loc, diag) else none,
           use_remote_execution opts, fs3⟩ := by
  simp only [mainBody, hcfg]
  rw [if_neg hrc, if_neg hgo]
  simp only [hsnap, hcomp, hrec]
  by_cases hc : code = 0
  · simp [hc]
  · simp [hc]

/-- C5: whenever the compiler invocation is reached, the Reconciler runs
after the invocation regardless of the compiler reporting errors, and it
runs before the failure is surfaced: on a failing compile (non-zero return
code) the run still ends with exit code 1, with the final filesystem being
the reconciliation `fs3` of the compiler-produced filesystem `fs2`, and with
the failure report printed. -/
theorem reconciler_runs_before_failure_surfaced {α : Type} (dumps : α → String)
    (compileLocal compileRemote : FileSystem → Int × String × FileSystem)
    (fs0 : FileSystem) (loc dir : String) (tsconfig : α) (opts : Opts)
    (r : MUTResult) (snap : Snapshot) (code : Int) (diag : String)
    (fs2 fs3 : FileSystem)
    (hcfg : maybe_update_tsconfig_file dumps fs0 loc tsconfig = .ok r)
    (hrc : r.returnCode ≠ 1)
    (hgo : ¬((sources_of opts).length = 0 ∧ opts.verify_lib_check = false))
    (hsnap : compute_previous_generated_file_metadata r.fs (sources_of opts) dir =
      .ok snap)
    (hcomp : (if use_remote_execution opts then compileRemote r.fs
      else compileLocal r.fs) = (code, diag, fs2))
    (hrec : maybe_reset_timestamps_on_generated_files snap dir fs2 = .ok fs3)
    (hfail : code ≠ 0) :
    mainBody dumps compileLocal compileRemote fs0 loc dir tsconfig opts =
      .ok ⟨1, 1, true, r.writes, none, some (loc, diag),
           use_remote_execution opts, fs3⟩ := by
  have h := mainBody_reaches_compile dumps compileLocal compileRemote fs0 loc dir
    tsconfig opts r snap code diag fs2 fs3 hcfg hrc hgo hsnap hcomp hrec
  rw [if_pos hfail, if_pos hfail] at h
  exact h

/-- C7 amended: the invocation outcome is a failure (exit code 1, with the
diagnostics text and the configuration path printed) exactly when the
compiler's return code is non-zero; a zero return code accompanied by any
diagnostics text — including a non-empty one — is reported as success and
nothing is printed. -/
theorem failure_iff_nonzero_exit {α : Type} (dumps : α → String)
    (compileLocal compileRemote : FileSystem → Int × String × FileSystem)
    (fs0 : FileSystem) (loc dir : String) (tsconfig : α) (opts : Opts)
    (r : MUTResult) (snap : Snapshot) (code : Int) (diag : String)
    (fs2 fs3 : FileSystem)
    (hcfg : maybe_update_tsconfig_file dumps fs0 loc tsconfig = .ok r)
    (hrc : r.returnCode ≠ 1)
    (hgo : ¬((sources_of opts).length = 0 ∧ opts.verify_lib_check = false))
    (hsnap : compute_previous_generated_file_metadata r.fs (sources_of opts) dir =
      .ok snap)
    (hcomp : (if use_remote_execution opts then compileRemote r.fs
      else compileLocal r.fs) = (code, diag, fs2))
    (hrec : maybe_reset_timestamps_on_generated_files snap dir fs2 = .ok fs3) :
    (code ≠ 0 → mainBody dumps compileLocal compileRemote fs0 loc dir tsconfig opts =
      .ok ⟨1, 1, true, r.writes, none, some (loc, diag),
           use_remote_execution opts, fs3⟩) ∧
    (code = 0 → mainBody dumps compileLocal compileRemote fs0 loc dir tsconfig opts =
      .ok ⟨0, 1, true, r.writes, none, none, use_remote_execution opts, fs3⟩) := by
  have h := mainBody_reaches_compile dumps compileLocal compileRemote fs0 loc dir
    tsconfig opts r snap code diag fs2 fs3 hcfg hrc hgo hsnap hcomp hrec
  constructor
  · intro hne
    rw [if_pos hne, if_pos hne] at h
    exact h
  · intro h0
    rw [if_neg (by simpa using h0), if_neg (by simpa using h0)] at h
    exact h

/-- A compiler oracle that succeeds without output and leaves the filesystem
alone. -/
def idCompiler : FileSystem → Int × String × FileSystem :=
  fun fs => (0, "", fs)

/-- A compiler oracle that exits with code 0 yet emits a non-empty
diagnostics stream. -/
def warnCompiler : FileSystem → Int × String × FileSystem :=
  fun fs => (0, "warning: something", fs)

/-- A compiler oracle that fails with return code 2 and diagnostics. -/
def failCompiler : FileSystem → Int × String × FileSystem :=
  fun fs => (2, "error TS1005", fs)

/-- Options with one source file, no deps, no lib-check verification, no
remote execution. -/
def optsOne : Opts :=
  ⟨some ["a.ts"], none, false, false⟩

/-- C7 counterexample: a concrete run in which the compiler exits with code
0 but emits a non-empty diagnostics stream is reported as success (exit code
0, nothing printed), contradicting the claim that non-empty diagnostics mark
failure. -/
theorem zero_exit_nonempty_diagnostics_reported_success :
    (warnCompiler fsC3).1 = 0 ∧ (warnCompiler fsC3).2.1 ≠ "" ∧
    (mainBody testDumps warnCompiler warnCompiler fsC3 "gen/tsconfig.json" "gen"
      docC optsOne).map
        (fun res => (res.exitCode, res.compilerInvocations,
          res.printedCompileFailure)) = .ok (0, 1, none) := by
  refine ⟨rfl, by decide, rfl⟩

/-- Options with no sources at all. -/
def optsEmpty : Opts :=
  ⟨none, none, false, false⟩

theorem zero_sources_short_circuit_success_witness :
    mainBody testDumps idCompiler idCompiler fsC3 "gen/tsconfig.json" "gen"
      docC optsEmpty = .ok ⟨0, 0, false, 0, none, none, false, fsC3⟩ :=
  zero_sources_short_circuit_success testDumps idCompiler idCompiler fsC3
    "gen/tsconfig.json" "gen" docC optsEmpty ⟨fsC3, 0, 0, none⟩ rfl rfl rfl rfl

theorem reconciler_runs_before_failure_surfaced_witness :
    mainBody testDumps failCompiler failCompiler fsC3 "gen/tsconfig.json" "gen"
      docC optsOne =
      .ok ⟨1, 1, true, 0, none, some ("gen/tsconfig.json", "error TS1005"),
           false, fsC3⟩ :=
  reconciler_runs_before_failure_surfaced testDumps failCompiler failCompiler
    fsC3 "gen/tsconfig.json" "gen" docC optsOne ⟨fsC3, 0, 0, none⟩ [] 2
    "error TS1005" fsC3 fsC3 rfl (by decide) (by decide) rfl rfl rfl (by decide)

/-- A filesystem on which writing the tsconfig path fails. -/
def fsW : FileSystem :=
  ⟨fun _ => none, fun p => p == "gen/tsconfig.json", 0⟩

theorem config_write_failure_aborts_before_compile_witness :
    mainBody testDumps idCompiler idCompiler fsW "gen/tsconfig.json" "gen"
      docC optsEmpty =
      .ok ⟨1, 0, false, 0, some ("IOError on write: " ++ "gen/tsconfig.json"),
           none, false, fsW⟩ :=
  config_write_failure_aborts_before_compile testDumps idCompiler idCompiler
    fsW "gen/tsconfig.json" "gen" docC optsEmpty rfl (Or.inl rfl)

theorem failure_iff_nonzero_exit_witness :
    mainBody testDumps warnCompiler warnCompiler fsC3 "gen/tsconfig.json" "gen"
      docC optsOne = .ok ⟨0, 1, true, 0, none, none, false, fsC3⟩ ∧
    "warning: something" ≠ "" :=
  ⟨(failure_iff_nonzero_exit testDumps warnCompiler warnCompiler fsC3
      "gen/tsconfig.json" "gen" docC optsOne ⟨fsC3, 0, 0, none⟩ [] 0
      "warning: something" fsC3 fsC3 rfl (by decide) (by decide) rfl rfl rfl).2 rfl,
   by decide⟩

/-! ### Behaviour of the snapshot capture -/

theorem dictInsert_mem {d : Snapshot} {k : String} {v : Nat × String}
    {kv : String × Nat × String} (h : kv ∈ dictInsert d k v) :
    kv ∈ d ∨ kv = (k, v) := by
  unfold dictInsert at h
  split at h
  · obtain ⟨kv0, hkv0, heq⟩ := List.mem_map.mp h
    by_cases hk : kv0.1 = k
    · rw [if_pos hk] at heq
      exact Or.inr heq.symm
    · rw [if_neg hk] at heq
      exact Or.inl (heq ▸ hkv0)
  · rcases List.mem_append.mp h with h1 | h2
    · exact Or.inl h1
    · exact Or.inr (by simpa using h2)

theorem snapshot_exts_sound (fs : FileSystem) (dir src : String)
    (exts : List String) (acc : Snapshot)
    (hread : ∀ ext ∈ exts, ∀ f,
      fs.files (ospath_join dir (gen_fname_for src ext)) = some f →
      f.readable = true)
    (hacc : ∀ kv ∈ acc,
      fs.files (ospath_join dir kv.1) = some ⟨kv.2.1, kv.2.2, true⟩) :
    ∃ acc2, snapshot_exts fs dir src exts acc = .ok acc2 ∧
      ∀ kv ∈ acc2,
        fs.files (ospath_join dir kv.1) = some ⟨kv.2.1, kv.2.2, true⟩ := by
  induction exts generalizing acc with
  | nil => exact ⟨acc, rfl, hacc⟩
  | cons ext rest ih =>
    have hrrest : ∀ e ∈ rest, ∀ f,
        fs.files (ospath_join dir (gen_fname_for src e)) = some f →
        f.readable = true :=
      fun e he => hread e (List.mem_cons_of_mem _ he)
    cases hfile : fs.files (ospath_join dir (gen_fname_for src ext)) with
    | none =>
      obtain ⟨acc2, hok, hsound⟩ := ih acc hrrest hacc
      refine ⟨acc2, ?_, hsound⟩
      simp only [snapshot_exts, hfile]
      exact hok
    | some f =>
      have hfr : f.readable = true :=
        hread ext (List.mem_cons_self _ _) f hfile
      have hacc2 : ∀ kv ∈ dictInsert acc (gen_fname_for src ext)
          (f.mtime, f.contents),
          fs.files (ospath_join dir kv.1) = some ⟨kv.2.1, kv.2.2, true⟩ := by
        intro kv hkv
        rcases dictInsert_mem hkv with h1 | h2
        · exact hacc kv h1
        · subst h2
          obtain ⟨m, c, rb⟩ := f
          simp only at hfr
          rw [hfr] at hfile
          exact hfile
      obtain ⟨acc2, hok, hsound⟩ := ih _ hrrest hacc2
      refine ⟨acc2, ?_, hsound⟩
      simp only [snapshot_exts, hfile, hfr]
      exact hok

theorem cpgfm_sources_sound (fs : FileSystem) (dir : String)
    (sources : List String) (acc : Snapshot)
    (hread : ∀ src ∈ sources, ∀ ext ∈ genExts, ∀ f,
      fs.files (ospath_join dir (gen_fname_for src ext)) = some f →
      f.readable = true)
    (hacc : ∀ kv ∈ acc,
      fs.files (ospath_join dir kv.1) = some ⟨kv.2.1, kv.2.2, true⟩) :
    ∃ snap, cpgfm_sources fs dir sources acc = .ok snap ∧
      ∀ kv ∈ snap,
        fs.files (ospath_join dir kv.1) = some ⟨kv.2.1, kv.2.2, true⟩ := by
  induction sources generalizing acc with
  | nil => exact ⟨acc, rfl, hacc⟩
  | cons src rest ih =>
    obtain ⟨acc2, hok2, hsound2⟩ := snapshot_exts_sound fs dir src genExts acc
      (hread src (List.mem_cons_self _ _)) hacc
    have hrrest : ∀ s ∈ rest, ∀ ext ∈ genExts, ∀ f,
        fs.files (ospath_join dir (gen_fname_for s ext)) = some f →
        f.readable = true :=
      fun s hs => hread s (List.mem_cons_of_mem _ hs)
    obtain ⟨snap, hok, hsound⟩ := ih acc2 hrrest hsound2
    refine ⟨snap, ?_, hsound⟩
    simp only [cpgfm_sources, hok2]
    exact hok

/-- C8 amended: if every expected generated artifact that exists is readable,
snapshot capture succeeds, and every snapshot entry records the modification
time and contents of an artifact that exists (and is readable) on disk —
artifacts that do not exist are simply excluded and the run continues.
However (see the counterexample) an EXISTING artifact that cannot be read is
not excluded: `compute_previous_generated_file_metadata` has no handler, so
the read error propagates and aborts the whole run. -/
theorem snapshot_excludes_only_missing_files (fs : FileSystem)
    (sources : List String) (dir : String)
    (hread : ∀ src ∈ sources, ∀ ext ∈ genExts, ∀ f,
      fs.files (ospath_join dir (gen_fname_for src ext)) = some f →
      f.readable = true) :
    ∃ snap, compute_previous_generated_file_metadata fs sources dir = .ok snap ∧
      ∀ kv ∈ snap,
        fs.files (ospath_join dir kv.1) = some ⟨kv.2.1, kv.2.2, true⟩ :=
  cpgfm_sources_sound fs dir sources [] hread (by simp)

/-- A filesystem on which an expected generated artifact exists but is not
readable. -/
def fsU : FileSystem :=
  ⟨fun p =>
    if p = "gen/tsconfig.json" then some ⟨3, "files=a.ts;", true⟩
    else if p = "gen/a.d.ts" then some ⟨4, "decl", false⟩
    else none,
   fun _ => false, 0⟩

/-- C8 counterexample: a prior artifact that exists but cannot be read is
NOT excluded from the snapshot with the run continuing; instead the read
error propagates out of `compute_previous_generated_file_metadata` and the
whole run aborts with an uncaught exception. -/
theorem unreadable_existing_artifact_aborts_snapshot :
    compute_previous_generated_file_metadata fsU ["a.ts"] "gen" =
      .error ("IOError on read: " ++ "gen/a.d.ts") ∧
    mainBody testDumps idCompiler idCompiler fsU "gen/tsconfig.json" "gen"
      docC optsOne = .error ("IOError on read: " ++ "gen/a.d.ts") :=
  ⟨rfl, rfl⟩

/-- A filesystem holding two of the three expected generated artifacts,
both readable. -/
def fsV : FileSystem :=
  ⟨fun p =>
    if p = "gen/a.d.ts" then some ⟨4, "decl", true⟩
    else if p = "gen/a.js" then some ⟨5, "body", true⟩
    else none,
   fun _ => false, 0⟩

theorem snapshot_excludes_only_missing_files_witness :
    compute_previous_generated_file_metadata fsV ["a.ts"] "gen" =
      .ok [("a.d.ts", (4, "decl")), ("a.js", (5, "body"))] ∧
    (∃ snap, compute_previous_generated_file_metadata fsV ["a.ts"] "gen" =
      .ok snap ∧
      ∀ kv ∈ snap,
        fsV.files (ospath_join "gen" kv.1) = some ⟨kv.2.1, kv.2.2, true⟩) :=
  ⟨rfl,
   snapshot_excludes_only_missing_files fsV ["a.ts"] "gen" (by
    intro src hsrc ext hext f hf
    simp only [List.mem_singleton] at hsrc
    subst hsrc
    simp only [genExts, List.mem_cons, List.not_mem_nil, or_false] at hext
    rcases hext with rfl | rfl | rfl
    · rw [show fsV.files (ospath_join "gen" (gen_fname_for "a.ts" ".d.ts")) =
          some ⟨4, "decl", true⟩ from rfl] at hf
      injection hf with h
      rw [← h]
    · rw [show fsV.files (ospath_join "gen" (gen_fname_for "a.ts" ".js")) =
          some ⟨5, "body", true⟩ from rfl] at hf
      injection hf with h
      rw [← h]
    · rw [show fsV.files (ospath_join "gen" (gen_fname_for "a.ts" ".map")) =
          none from rfl] at hf
      exact absurd hf (by simp))⟩

/-! ### Behaviour of the generated-name computation -/

theorem countTs_cons_ts (rest : List Char) :
    countTs ('.' :: 't' :: 's' :: rest) = 1 + countTs rest := by
  simp [countTs]

theorem countTs_cons_ne (c1 c2 c3 : Char) (rest : List Char)
    (h : ¬(c1 = '.' ∧ c2 = 't' ∧ c3 = 's')) :
    countTs (c1 :: c2 :: c3 :: rest) = countTs (c2 :: c3 :: rest) := by
  rw [countTs.eq_4, if_neg h]

theorem replaceTs_cons_ts (rep rest : List Char) :
    replaceTs rep ('.' :: 't' :: 's' :: rest) = rep ++ replaceTs rep rest := by
  simp [replaceTs]

theorem replaceTs_cons_ne (rep : List Char) (c1 c2 c3 : Char) (rest : List Char)
    (h : ¬(c1 = '.' ∧ c2 = 't' ∧ c3 = 's')) :
    replaceTs rep (c1 :: c2 :: c3 :: rest) = c1 :: replaceTs rep (c2 :: c3 :: rest) := by
  rw [replaceTs.eq_4, if_neg h]

theorem countTs_suffix (l : List Char) : 1 ≤ countTs (l ++ ['.', 't', 's']) := by
  induction l with
  | nil => decide
  | cons c l ih =>
    rcases l with _ | ⟨d, _ | ⟨e, l2⟩⟩
    · simp only [List.nil_append, List.cons_append]
      rw [countTs_cons_ne c '.' 't' ['s']
        (by rintro ⟨h1, h2, h3⟩; exact absurd h2 (by decide))]
      decide
    · simp only [List.nil_append, List.cons_append]
      rw [countTs_cons_ne c d '.' ['t', 's']
        (by rintro ⟨h1, h2, h3⟩; exact absurd h3 (by decide))]
      simpa using ih
    · simp only [List.cons_append] at ih ⊢
      by_cases hcond : c = '.' ∧ d = 't' ∧ e = 's'
      · obtain ⟨h1, h2, h3⟩ := hcond
        subst h1
        subst h2
        subst h3
        rw [countTs_cons_ts]
        exact Nat.le_add_right 1 _
      · rw [countTs_cons_ne c d e (l2 ++ ['.', 't', 's']) hcond]
        exact ih

theorem replaceTs_single (rep base : List Char)
    (h : countTs (base ++ ['.', 't', 's']) = 1) :
    replaceTs rep (base ++ ['.', 't', 's']) = base ++ rep := by
  induction base with
  | nil =>
    simp only [List.nil_append]
    rw [replaceTs_cons_ts]
    simp [replaceTs]
  | cons c base ih =>
    rcases base with _ | ⟨d, _ | ⟨e, l2⟩⟩
    · have hcond : ¬(c = '.' ∧ '.' = 't' ∧ 't' = 's') := by
        rintro ⟨h1, h2, h3⟩
        exact absurd h2 (by decide)
      simp only [List.nil_append, List.cons_append]
      rw [replaceTs_cons_ne rep c '.' 't' ['s'] hcond, replaceTs_cons_ts]
      simp [replaceTs]
    · have hcond : ¬(c = '.' ∧ d = 't' ∧ '.' = 's') := by
        rintro ⟨h1, h2, h3⟩
        exact absurd h3 (by decide)
      simp only [List.nil_append, List.cons_append] at h ih ⊢
      rw [replaceTs_cons_ne rep c d '.' ['t', 's'] hcond]
      rw [countTs_cons_ne c d '.' ['t', 's'] hcond] at h
      rw [ih h]
    · simp only [List.cons_append] at h ih ⊢
      by_cases hcond : c = '.' ∧ d = 't' ∧ e = 's'
      · exfalso
        obtain ⟨h1, h2, h3⟩ := hcond
        subst h1
        subst h2
        subst h3
        rw [countTs_cons_ts] at h
        have := countTs_suffix l2
        omega
      · rw [replaceTs_cons_ne rep c d e (l2 ++ ['.', 't', 's']) hcond]
        rw [countTs_cons_ne c d e (l2 ++ ['.', 't', 's']) hcond] at h
        rw [ih h]

theorem basenameChars_no_slash (l : List Char) (h : '/' ∉ l) :
    basenameChars l = l := by
  unfold basenameChars
  have hall : ∀ a ∈ l.reverse, (a != '/') = true := by
    intro a ha
    have ham : a ∈ l := List.mem_reverse.mp ha
    have hne : a ≠ '/' := fun he => h (he ▸ ham)
    simpa using hne
  rw [List.takeWhile_eq_self_iff.mpr hall, List.reverse_reverse]

/-- A filesystem holding the artifacts of source `a.ts.ts` under their
actual compiler-produced names (simple final-extension replacement). -/
def fsM : FileSystem :=
  ⟨fun p =>
    if p = "gen/a.ts.d.ts" then some ⟨1, "d", true⟩
    else if p = "gen/a.ts.js" then some ⟨2, "j", true⟩
    else if p = "gen/a.ts.map" then some ⟨3, "m", true⟩
    else none,
   fun _ => false, 0⟩

/-- C10: the expected generated artifact names are computed by replacing
every occurrence of `.ts` in the (slash-free) source name by the extension;
when `.ts` occurs exactly once, as the final extension, this yields exactly
`base ++ ext` for each extension; but for a name containing `.ts` twice,
such as `a.ts.ts`, the computed names differ from simple final-extension
replacement, so artifacts stored under their actual names are not
snapshotted (the snapshot of such a source over a filesystem holding the
actual artifacts is empty). -/
theorem generated_names_replace_every_ts_occurrence :
    (∀ (src ext : String) (base : List Char),
      src.data = base ++ ('.' :: 't' :: 's' :: []) →
      countTs src.data = 1 →
      '/' ∉ src.data → '/' ∉ ext.data →
      gen_fname_for src ext = ⟨base ++ ext.data⟩) ∧
    gen_fname_for "a.ts.ts" ".d.ts" = "a.d.ts.d.ts" ∧
    "a.d.ts.d.ts" ≠ "a.ts.d.ts" ∧
    gen_fname_for "a.ts.ts" ".js" = "a.js.js" ∧
    "a.js.js" ≠ "a.ts.js" ∧
    gen_fname_for "a.ts.ts" ".map" = "a.map.map" ∧
    "a.map.map" ≠ "a.ts.map" ∧
    compute_previous_generated_file_metadata fsM ["a.ts.ts"] "gen" = .ok [] := by
  refine ⟨?_, rfl, by decide, rfl, by decide, rfl, by decide, rfl⟩
  intro src ext base hsplit honce hs he
  have h1 : replaceTs ext.data src.data = base ++ ext.data := by
    rw [hsplit]
    rw [hsplit] at honce
    exact replaceTs_single ext.data base honce
  have hns : '/' ∉ base ++ ext.data := by
    intro hmem
    rcases List.mem_append.mp hmem with hb | he2
    · exact hs (hsplit ▸ List.mem_append_left _ hb)
    · exact he he2
  unfold gen_fname_for
  rw [h1]
  unfold ospath_basename
  exact congrArg String.mk (basenameChars_no_slash _ hns)

theorem generated_names_replace_every_ts_occurrence_witness :
    gen_fname_for "foo.ts" ".js" = ⟨['f', 'o', 'o'] ++ ".js".data⟩ ∧
    gen_fname_for "foo.ts" ".js" = "foo.js" :=
  ⟨generated_names_replace_every_ts_occurrence.1 "foo.ts" ".js" ['f', 'o', 'o']
      rfl rfl (by decide) (by decide),
   rfl⟩
